import Mathlib

/-!
Verification of the reactive marimo notebook `src/marimo_notebook.py`.

The notebook has five cells:
  A : produces `np` (the numpy module) and `x = np.linspace(0, 10, 500)`;
  B : consumes `np, x`, produces `y = np.sin(x)`;
  C : produces `slider = mo.ui.slider(1, 25, step=1, value=5, ...)`;
  D : consumes `np, y, slider`, computes `k = max(1, int(slider.value))`,
      `kernel = np.ones(k)/k`, `y_smooth = np.convolve(y, kernel, mode="same")`,
      and a banded markdown message;
  E : consumes `mo, x, y, y_smooth`, produces a dataframe `df`.

Numeric values are modelled over `ℚ`; the transcendental `np.sin` (an external
library function applied elementwise) is carried as an abstract parameter
`sinFn : ℚ → ℚ`, since every claim about the notebook's glue holds for an
arbitrary elementwise transform.  The marimo reactive engine itself is not part
of the repository; where a claim depends on it, the engine is modelled from the
spec and marked as such.
-/

/-- Python `int(q)` on a rational: truncation toward zero. -/
def pyInt (q : ℚ) : ℤ := if q < 0 then -⌊-q⌋ else ⌊q⌋

/-- Cell D, line `k = max(1, int(slider.value))` as a function of the
slider's current value. -/
def kOf (v : ℚ) : ℤ := max 1 (pyInt v)

/-- The averaging kernel of cell D: `np.ones(k) / k`. -/
def onesDiv (k : ℕ) : List ℚ := (List.replicate k (1 : ℚ)).map fun a => a / (k : ℚ)

/-- The message of cell D, lines 59-63 of the source. -/
def fineMsg : String := "✅ Fine detail preserved (small window)."

/-- The medium-window message of cell D. -/
def balancedMsg : String := "🟨 Balanced smoothing (medium window)."

/-- The large-window message of cell D. -/
def strongMsg : String := "🧽 Strong smoothing (large window)."

/-- The banded message published by cell D:
`fine if k <= 4 else (balanced if k <= 12 else strong)`. -/
def messageOf (k : ℤ) : String :=
  if k ≤ 4 then fineMsg else if k ≤ 12 then balancedMsg else strongMsg

/-- `np.linspace a b n`: `n` evenly spaced points from `a` to `b`, endpoints
included (step `(b-a)/(n-1)`). -/
def linspace (a b : ℚ) (n : ℕ) : List ℚ :=
  (List.range n).map fun i : ℕ => a + (b - a) * (i : ℚ) / ((n : ℚ) - 1)

/-- Full discrete convolution, `np.convolve(a, v, mode="full")`:
output length `a.length + v.length - 1`, entry `n` is `∑ m, a[m] * v[n-m]`
over the indices where both factors are in range. -/
def convFull (a v : List ℚ) : List ℚ :=
  (List.range (a.length + v.length - 1)).map fun n =>
    ∑ m ∈ Finset.range a.length,
      a.getD m 0 * (if m ≤ n then v.getD (n - m) 0 else 0)

/-- `np.convolve(a, v, mode="same")`: the central `max a.length v.length`
entries of the full convolution, starting at offset `(min - 1) / 2`. -/
def convSame (a v : List ℚ) : List ℚ :=
  ((convFull a v).drop ((min a.length v.length - 1) / 2)).take
    (max a.length v.length)

/-- The slider widget of cell C: `mo.ui.slider(1, 25, step=1, value=5,
label="Moving average window (k)")`. -/
structure Slider where
  start : ℤ
  stop : ℤ
  step : ℤ
  value : ℤ
  label : String
deriving DecidableEq

/-- The slider as constructed in cell C. -/
def slider : Slider :=
  { start := 1, stop := 25, step := 1, value := 5,
    label := "Moving average window (k)" }

/-- Modelled from the spec: the marimo slider widget is external-framework
code absent from `src/`; per the spec, the engine clamps "any out-of-range or
non-integer input to the nearest valid integer"; with bounds 1 and 25 and
step 1, the valid values are the integers in `[1, 25]`. -/
def sliderSet (v : ℚ) : ℤ := max 1 (min 25 (round v))

/-- The window that cell D effectively uses for an externally set slider
input `v`: the widget clamps `v`, then cell D computes `max(1, int(value))`. -/
def effectiveK (v : ℚ) : ℤ := kOf ((sliderSet v : ℤ) : ℚ)

/-- The values produced by one front-to-back run of the notebook's data cells,
as a function of the slider's current value. -/
structure NotebookState where
  x : List ℚ
  y : List ℚ
  k : ℤ
  y_smooth : List ℚ
  message : String

/-- Cells A, B and D of the notebook run in dependency order on slider value
`v`, with `np.sin` abstracted as `sinFn`. -/
def runNotebook (sinFn : ℚ → ℚ) (v : ℚ) : NotebookState :=
  let x := linspace 0 10 500
  let y := x.map sinFn
  let k := kOf v
  let kernel := onesDiv k.toNat
  { x := x, y := y, k := k, y_smooth := convSame y kernel,
    message := messageOf k }

/-- C3: the published message is banded on the window `k`: `k ≤ 4` gives the
fine-detail message, `5 ≤ k ≤ 12` the balanced message, `k > 12` the
strong-smoothing message. -/
theorem messageOf_banding (k : ℤ) :
    (k ≤ 4 → messageOf k = fineMsg) ∧
    (5 ≤ k → k ≤ 12 → messageOf k = balancedMsg) ∧
    (12 < k → messageOf k = strongMsg) := by
  refine ⟨fun h => ?_, fun h5 h12 => ?_, fun h => ?_⟩
  · simp [messageOf, h]
  · have h4 : ¬ k ≤ 4 := by omega
    simp [messageOf, h4, h12]
  · have h4 : ¬ k ≤ 4 := by omega
    have h12 : ¬ k ≤ 12 := by omega
    simp [messageOf, h4, h12]

/-- C3 witness: `k = 3` gives fine detail, `k = 8` balanced, `k = 20` strong. -/
theorem messageOf_banding_witness :
    messageOf 3 = fineMsg ∧ messageOf 8 = balancedMsg ∧
      messageOf 20 = strongMsg :=
  ⟨(messageOf_banding 3).1 (by decide),
   (messageOf_banding 8).2.1 (by decide) (by decide),
   (messageOf_banding 20).2.2 (by decide)⟩

/-- C5: the slider control of cell C is integer-valued, range-constrained to
`[1, 25]`, with step 1 and initial value 5. -/
theorem slider_construction :
    slider.start = 1 ∧ slider.stop = 25 ∧ slider.step = 1 ∧
      slider.value = 5 :=
  ⟨rfl, rfl, rfl, rfl⟩

/-- C9: for every slider value `v`, the window `k = max(1, int(v))` is at
least 1, the averaging kernel `ones(k)/k` is non-empty, and the divisor `k`
is non-zero, so cell D's computation is total. -/
theorem cellD_total (v : ℚ) :
    kOf v = max 1 (pyInt v) ∧ 1 ≤ kOf v ∧
      onesDiv (kOf v).toNat ≠ [] ∧ ((kOf v).toNat : ℚ) ≠ 0 := by
  have h1 : 1 ≤ kOf v := le_max_left 1 (pyInt v)
  refine ⟨rfl, h1, ?_, ?_⟩
  · intro hnil
    have hlen : (onesDiv (kOf v).toNat).length = (kOf v).toNat := by
      simp [onesDiv]
    rw [hnil] at hlen
    simp at hlen
    omega
  · have : (kOf v).toNat ≠ 0 := by omega
    exact_mod_cast Nat.cast_ne_zero.mpr this

/-- The full convolution has length `a.length + v.length - 1`. -/
theorem convFull_length (a v : List ℚ) :
    (convFull a v).length = a.length + v.length - 1 := by
  simp [convFull]

/-- With a non-empty kernel no longer than the signal, the same-mode
convolution has exactly the signal's length. -/
theorem convSame_length (a v : List ℚ) (h1 : 1 ≤ v.length)
    (h2 : v.length ≤ a.length) : (convSame a v).length = a.length := by
  simp only [convSame, List.length_take, List.length_drop, convFull_length]
  omega

/-- Field `x` of a notebook run. -/
theorem runNotebook_x (sinFn : ℚ → ℚ) (v : ℚ) :
    (runNotebook sinFn v).x = linspace 0 10 500 := rfl

/-- Field `y` of a notebook run. -/
theorem runNotebook_y (sinFn : ℚ → ℚ) (v : ℚ) :
    (runNotebook sinFn v).y = (linspace 0 10 500).map sinFn := by
  simp only [runNotebook]

/-- Field `k` of a notebook run. -/
theorem runNotebook_k (sinFn : ℚ → ℚ) (v : ℚ) :
    (runNotebook sinFn v).k = kOf v := rfl

/-- Field `y_smooth` of a notebook run. -/
theorem runNotebook_y_smooth (sinFn : ℚ → ℚ) (v : ℚ) :
    (runNotebook sinFn v).y_smooth =
      convSame ((linspace 0 10 500).map sinFn) (onesDiv (kOf v).toNat) := by
  simp only [runNotebook]

/-- Field `message` of a notebook run. -/
theorem runNotebook_message (sinFn : ℚ → ℚ) (v : ℚ) :
    (runNotebook sinFn v).message = messageOf (kOf v) := rfl

/-- The notebook's `x` array has 500 entries. -/
theorem linspace_length (a b : ℚ) (n : ℕ) : (linspace a b n).length = n := by
  rw [linspace, List.length_map, List.length_range]

/-- For an integer slider value `k ≥ 1`, cell D computes exactly `k`. -/
theorem kOf_intCast (k : ℤ) (hk1 : 1 ≤ k) : kOf (k : ℚ) = k := by
  have hfloor : pyInt ((k : ℤ) : ℚ) = k := by
    simp [pyInt]
    intro h
    omega
  rw [kOf, hfloor]
  omega

/-- C6: for every window `1 ≤ k ≤ 25`, the smoothing of cell D is the
same-length (centered, `mode="same"`) convolution with the `ones(k)/k`
kernel, and `y_smooth` has exactly the length of `y`, namely 500. -/
theorem y_smooth_same_length (sinFn : ℚ → ℚ) (k : ℤ) (hk1 : 1 ≤ k)
    (hk25 : k ≤ 25) :
    (runNotebook sinFn (k : ℚ)).y_smooth =
        convSame (runNotebook sinFn (k : ℚ)).y (onesDiv k.toNat) ∧
      (runNotebook sinFn (k : ℚ)).y_smooth.length = 500 ∧
      (runNotebook sinFn (k : ℚ)).y.length = 500 := by
  have hk : kOf (k : ℚ) = k := kOf_intCast k hk1
  have hylen : ((linspace 0 10 500).map sinFn).length = 500 := by
    rw [List.length_map, linspace_length]
  have hker : (onesDiv k.toNat).length = k.toNat := by simp [onesDiv]
  refine ⟨?_, ?_, ?_⟩
  · rw [runNotebook_y_smooth, runNotebook_y, hk]
  · rw [runNotebook_y_smooth, hk,
      convSame_length _ _ (by rw [hker]; omega) (by rw [hker, hylen]; omega),
      hylen]
  · rw [runNotebook_y, hylen]

/-- C6 witness: at window 7 (and the identity transform) `y_smooth` and `y`
both have 500 entries. -/
theorem y_smooth_same_length_witness :
    (runNotebook (fun q => q) (7 : ℚ)).y_smooth.length = 500 ∧
      (runNotebook (fun q => q) (7 : ℚ)).y.length = 500 :=
  ⟨(y_smooth_same_length (fun q => q) 7 (by decide) (by decide)).2.1,
   (y_smooth_same_length (fun q => q) 7 (by decide) (by decide)).2.2⟩

/-- Convolving with the singleton kernel `[1]` reproduces the signal:
the full convolution with `[1]` is the signal itself. -/
theorem convFull_one (a : List ℚ) : convFull a [(1 : ℚ)] = a := by
  have hlen : (convFull a [(1 : ℚ)]).length = a.length := by
    rw [convFull_length]
    simp
  apply List.ext_getElem hlen
  intro i h1 h2
  simp only [convFull, List.getElem_map, List.getElem_range]
  rw [Finset.sum_eq_single i]
  · have hii : i - i = 0 := by omega
    simp [hii, List.getElem?_eq_getElem h2]
  · intro b hb hbi
    have hcase : (if b ≤ i then [(1 : ℚ)].getD (i - b) 0 else 0) = 0 := by
      split
      · have hpos : i - b ≠ 0 := by omega
        cases hib : i - b with
        | zero => omega
        | succ t => simp
      · rfl
    rw [hcase, mul_zero]
  · intro hnot
    exact absurd (Finset.mem_range.mpr h2) hnot

/-- Same-mode convolution with the singleton kernel `[1]` is the identity. -/
theorem convSame_one (a : List ℚ) : convSame a [(1 : ℚ)] = a := by
  rw [convSame, convFull_one]
  have h0 : (min a.length [(1 : ℚ)].length - 1) / 2 = 0 := by
    simp only [List.length_cons, List.length_nil]
    omega
  rw [h0, List.drop_zero]
  exact List.take_of_length_le (le_max_left _ _)

/-- C10: when the slider value is 1, the kernel of cell D is the singleton
`[1]` and the same-mode convolution is the identity: `y_smooth = y`. -/
theorem window_one_identity (sinFn : ℚ → ℚ) :
    onesDiv (kOf 1).toNat = [(1 : ℚ)] ∧
      (runNotebook sinFn 1).y_smooth = (runNotebook sinFn 1).y := by
  have hk : kOf (1 : ℚ) = 1 := by simpa using kOf_intCast 1 (by decide)
  have hker : onesDiv (kOf (1 : ℚ)).toNat = [(1 : ℚ)] := by
    rw [hk]
    norm_num [onesDiv, List.replicate]
  refine ⟨hker, ?_⟩
  rw [runNotebook_y_smooth, runNotebook_y, hker, convSame_one]

/-- C2: end to end, with `x = linspace 0 10 500`, `y` its elementwise image,
and slider value 5, cell D computes `k = 5`, the kernel `ones(5)/5`, the
same-mode 5-point moving-average convolution, and the balanced message. -/
theorem end_to_end (sinFn : ℚ → ℚ) :
    (runNotebook sinFn 5).x = linspace 0 10 500 ∧
      (runNotebook sinFn 5).y = (runNotebook sinFn 5).x.map sinFn ∧
      (runNotebook sinFn 5).k = 5 ∧
      onesDiv 5 = List.replicate 5 ((1 : ℚ) / 5) ∧
      (runNotebook sinFn 5).y_smooth =
        convSame (runNotebook sinFn 5).y (onesDiv 5) ∧
      (runNotebook sinFn 5).message = balancedMsg := by
  have hk : kOf (5 : ℚ) = 5 := by simpa using kOf_intCast 5 (by decide)
  refine ⟨runNotebook_x sinFn 5, ?_, ?_,
    by norm_num [onesDiv, List.replicate], ?_, ?_⟩
  · rw [runNotebook_y, runNotebook_x]
  · rw [runNotebook_k, hk]
  · rw [runNotebook_y_smooth, runNotebook_y, hk,
      show (5 : ℤ).toNat = 5 from rfl]
  · rw [runNotebook_message, hk]
    rw [show messageOf 5 = balancedMsg from by norm_num [messageOf]]

/-- C1: the window cell D effectively uses for an external slider input `v`
is `v` clamped to the nearest integer in `[1, 25]`; inputs 0, -3 and 30
give 1, 1 and 25. -/
theorem effectiveK_clamps :
    (∀ v : ℚ, effectiveK v = max 1 (min 25 (round v))) ∧
      effectiveK 0 = 1 ∧ effectiveK (-3) = 1 ∧ effectiveK 30 = 25 := by
  have hgen : ∀ v : ℚ, effectiveK v = max 1 (min 25 (round v)) := by
    intro v
    have h1 : 1 ≤ sliderSet v := le_max_left _ _
    rw [effectiveK, kOf_intCast _ h1, sliderSet]
  have hr3 : round (-3 : ℚ) = -3 := by
    rw [show (-3 : ℚ) = ((-3 : ℤ) : ℚ) by norm_num, round_intCast]
  have hr30 : round (30 : ℚ) = 30 := by
    rw [show (30 : ℚ) = ((30 : ℤ) : ℚ) by norm_num, round_intCast]
  refine ⟨hgen, ?_, ?_, ?_⟩
  · rw [hgen, round_zero]
    omega
  · rw [hgen, hr3]
    omega
  · rw [hgen, hr30]
    omega

/-- The value names bound by the notebook's cells, plus the ambient modules
`np` and `mo`. -/
inductive VName where
  | np | x | y | slider | k | y_smooth | mo | df
deriving DecidableEq

/-- Runtime values carried by the binding environment. -/
inductive RVal where
  | modV : RVal
  | intV : ℤ → RVal
  | listV : List ℚ → RVal
  | sliderV : Slider → RVal
  | frameV : List ℚ → List ℚ → List ℚ → RVal

/-- The declared interface of a cell: its input and output names. -/
structure CellSig where
  inputs : List VName
  outputs : List VName

/-- Interface of cell A: no inputs, produces `np` and `x`. -/
def sigA : CellSig := ⟨[], [.np, .x]⟩

/-- Interface of cell B: consumes `np` and `x`, produces `y`. -/
def sigB : CellSig := ⟨[.np, .x], [.y]⟩

/-- Interface of cell C: no inputs, produces `slider`. -/
def sigC : CellSig := ⟨[], [.slider]⟩

/-- Interface of cell D: consumes `np`, `y` and `slider`, produces `k` and
`y_smooth`. -/
def sigD : CellSig := ⟨[.np, .y, .slider], [.k, .y_smooth]⟩

/-- Interface of cell E: consumes `mo`, `x`, `y` and `y_smooth`, produces
`df`. -/
def sigE : CellSig := ⟨[.mo, .x, .y, .y_smooth], [.df]⟩

/-- The five cells of the notebook. -/
inductive CellId where
  | A | B | C | D | E
deriving DecidableEq

/-- The declared interface of each cell, read off the source signatures. -/
def cellSig : CellId → CellSig
  | .A => sigA
  | .B => sigB
  | .C => sigC
  | .D => sigD
  | .E => sigE

/-- Cell `c` depends directly on cell `d` when some output of `d` is an
input of `c`. -/
def dependsOn (c d : CellId) : Bool :=
  (cellSig c).inputs.any fun n => (cellSig d).outputs.contains n

/-- A topological level for each cell, decreasing along dependencies. -/
def level : CellId → ℕ
  | .A => 0
  | .B => 1
  | .C => 0
  | .D => 2
  | .E => 3

/-- Every direct dependency strictly decreases the level. -/
theorem dependsOn_level (c d : CellId) (h : dependsOn c d = true) :
    level d < level c := by
  cases c <;> cases d <;> revert h <;> decide

/-- C4: the dependency graph over the five cells is a directed acyclic
graph: no cell directly or transitively depends on its own output, i.e. any
transitive dependency relates two distinct cells. -/
theorem cell_graph_acyclic (c d : CellId)
    (h : Relation.TransGen (fun a b => dependsOn a b = true) c d) :
    c ≠ d := by
  have key : level d < level c := by
    induction h with
    | single hstep => exact dependsOn_level _ _ hstep
    | tail _ hstep ih => exact lt_trans (dependsOn_level _ _ hstep) ih
  intro heq
  rw [heq] at key
  exact lt_irrefl _ key

/-- C4 witness: cell B transitively depends on cell A, and indeed B ≠ A. -/
theorem cell_graph_acyclic_witness : CellId.B ≠ CellId.A :=
  cell_graph_acyclic CellId.B CellId.A (Relation.TransGen.single (by decide))

/-- A reactive cell: its declared interface plus its pure, fallible function
from the environment to the list of its output values (`none` models the
cell function raising). -/
structure RCell where
  sig : CellSig
  run : (VName → RVal) → Option (List RVal)

/-- Modelled from the spec: rebinding a cell's output names to the values
its function returned, all other bindings untouched. -/
def updateEnv (env : VName → RVal) : List VName → List RVal → VName → RVal
  | [], _, m => env m
  | _ :: _, [], m => env m
  | n :: ns, v :: vs, m => if m = n then v else updateEnv env ns vs m

/-- Modelled from the spec: one topological-order pass of the reactive
recompute engine (the marimo runtime, absent from `src/`).  Cells are
visited in declaration order (a topological order of the notebook graph);
a cell whose declared inputs meet the changed set is recomputed and its
outputs join the changed set; other cells are left untouched; a cell
function raising (`none`) aborts the whole pass. -/
def evalPass : List RCell → (VName → RVal) → List VName →
    Option ((VName → RVal) × List VName)
  | [], env, changed => some (env, changed)
  | c :: rest, env, changed =>
    if c.sig.inputs.any fun n => changed.contains n then
      match c.run env with
      | none => none
      | some vs =>
          evalPass rest (updateEnv env c.sig.outputs vs)
            (changed ++ c.sig.outputs)
    else evalPass rest env changed

/-- Modelled from the spec: the engine contract
`evaluate(graph, environment, changed_names) -> updated_environment`;
`none` when a cell function raised mid-pass. -/
def evaluate (cells : List RCell) (env : VName → RVal)
    (changed : List VName) : Option (VName → RVal) :=
  (evalPass cells env changed).map Prod.fst

/-- Modelled from the spec: the pass commits its environment on success and
rolls back to the prior environment when the pass failed. -/
def applyChange (cells : List RCell) (env : VName → RVal)
    (changed : List VName) : VName → RVal :=
  match evaluate cells env changed with
  | some e => e
  | none => env

/-- An `any` over a predicate false everywhere is false. -/
theorem any_contains_nil (l : List VName) :
    (l.any fun n => List.contains ([] : List VName) n) = false := by
  induction l with
  | nil => rfl
  | cons a t ih => simp [ih]

/-- C7: evaluating with an empty changed set returns the input environment
unchanged, whichever the cells: no cell's inputs meet the empty set, so no
cell is re-run and every binding is copied as is. -/
theorem evaluate_empty_changed (cells : List RCell) (env : VName → RVal) :
    evaluate cells env [] = some env := by
  have h : evalPass cells env [] = some (env, []) := by
    induction cells generalizing env with
    | nil => rfl
    | cons c rest ih => simp [evalPass, any_contains_nil, ih]
  simp [evaluate, h]

/-- Cell A's function: produces the numpy module and `x = linspace 0 10 500`. -/
def runA : (VName → RVal) → Option (List RVal) :=
  fun _ => some [RVal.modV, RVal.listV (linspace 0 10 500)]

/-- Cell B's function: reads `x`, produces its elementwise image `y`. -/
def runB (sinFn : ℚ → ℚ) : (VName → RVal) → Option (List RVal) :=
  fun env =>
    match env VName.x with
    | RVal.listV xs => some [RVal.listV (xs.map sinFn)]
    | _ => none

/-- Cell C's function: produces the slider widget. -/
def runC : (VName → RVal) → Option (List RVal) :=
  fun _ => some [RVal.sliderV slider]

/-- Cell D's function: reads `y` and `slider`, produces `k` and `y_smooth`. -/
def runD : (VName → RVal) → Option (List RVal) :=
  fun env =>
    match env VName.y, env VName.slider with
    | RVal.listV ys, RVal.sliderV s =>
        some [RVal.intV (max 1 s.value),
          RVal.listV (convSame ys (onesDiv (max 1 s.value).toNat))]
    | _, _ => none

/-- Cell E's function: reads `x`, `y` and `y_smooth`, produces the frame. -/
def runE : (VName → RVal) → Option (List RVal) :=
  fun env =>
    match env VName.x, env VName.y, env VName.y_smooth with
    | RVal.listV xs, RVal.listV ys, RVal.listV ss =>
        some [RVal.frameV xs ys ss]
    | _, _, _ => none

/-- The notebook's five cells, in declaration (topological) order. -/
def notebookCells (sinFn : ℚ → ℚ) : List RCell :=
  [⟨sigA, runA⟩, ⟨sigB, runB sinFn⟩, ⟨sigC, runC⟩, ⟨sigD, runD⟩,
   ⟨sigE, runE⟩]

/-- The notebook graph with the cell computing the smoothed value (cell D)
made to fail, as in the spec's rollback scenario. -/
def notebookCellsDfail (sinFn : ℚ → ℚ) : List RCell :=
  [⟨sigA, runA⟩, ⟨sigB, runB sinFn⟩, ⟨sigC, runC⟩, ⟨sigD, fun _ => none⟩,
   ⟨sigE, runE⟩]

/-- The binding environment after the initial full evaluation, with the
slider at its initial value. -/
def initEnv (sinFn : ℚ → ℚ) : VName → RVal
  | .np => .modV
  | .mo => .modV
  | .x => .listV (linspace 0 10 500)
  | .y => .listV ((linspace 0 10 500).map sinFn)
  | .slider => .sliderV slider
  | .k => .intV (max 1 slider.value)
  | .y_smooth =>
      .listV (convSame ((linspace 0 10 500).map sinFn)
        (onesDiv (max 1 slider.value).toNat))
  | .df =>
      .frameV (linspace 0 10 500) ((linspace 0 10 500).map sinFn)
        (convSame ((linspace 0 10 500).map sinFn)
          (onesDiv (max 1 slider.value).toNat))

/-- C8: when the cell computing the smoothed value fails during a pass
triggered by a slider change, the pass reports the failure, the environment
is rolled back to exactly the pre-pass environment, and on the intact graph
the same change event still triggers a successful fresh pass. -/
theorem rollback_on_failure (sinFn : ℚ → ℚ) (env : VName → RVal) :
    evaluate (notebookCellsDfail sinFn) env [VName.slider] = none ∧
      applyChange (notebookCellsDfail sinFn) env [VName.slider] = env ∧
      (evaluate (notebookCells sinFn) (initEnv sinFn)
          [VName.slider]).isSome = true := by
  have h : evalPass (notebookCellsDfail sinFn) env [VName.slider] = none := rfl
  refine ⟨?_, ?_, ?_⟩
  · simp [evaluate, h]
  · simp [applyChange, evaluate, h]
  · rfl
